import Mathlib

/-!
Verification of the HEVIA grade aggregation and deliberation engine
(`src/notation` of the repository) against its natural-language
specification.

The TypeScript services are embedded shallowly:

* JavaScript numbers are modelled as exact rationals (`Rat`); the only
  rounding the services perform is `Math.round(x * 100) / 100`, modelled
  by `jsRound`/`round2` below (for the non-negative quantities handled
  here, `Math.round` is `⌊x + 1/2⌋`).
* Database rows become Lean structures; repository calls whose results
  the services consume become explicit parameters of the embedded
  functions.  `throw new ServiceError(...)` becomes `Except.error`.
* `Array.prototype.sort(cmp)` is modelled as a stable insertion sort by
  the same comparator (ECMAScript requires the sort to be stable; the
  concrete algorithm is implementation-defined, but every stable sort
  agrees on the comparators used here at the inputs considered).
-/

namespace Hevia

/-- JavaScript `Math.round`: round half toward positive infinity
(for the non-negative values computed by the services this coincides
with round-half-away-from-zero). -/
def jsRound (x : Rat) : Int := ⌊x + 1/2⌋

/-- The rounding idiom used throughout the services:
`Math.round(x * 100) / 100`, i.e. rounding to two decimal places. -/
def round2 (x : Rat) : Rat := (jsRound (x * 100) : Rat) / 100

/-- Lifecycle status of an evaluation entry
(column `statut` of `notation.resultats_evaluation`). -/
inductive Statut
  | provisoire
  | definitif
  | annule
  | enAttente
  | rattrapage
deriving DecidableEq, Repr

/-- The `ServiceError(message, status, code)` class of `@shared/types`. -/
structure ServiceErr where
  message : String
  status : Nat
  code : String
deriving DecidableEq, Repr

/-! ## Final grade aggregation (`EvaluationService.getNoteFinaleUE`) -/

/-- One row returned by `evaluationRepository.findByEtudiantAndUE`:
an evaluation entry of the student joined with its component
(`note_sur_20` is the generated column, `pourcentage` the component
weight). -/
structure EvalUE where
  typeComposante : String
  note : Rat
  noteSur20 : Rat
  pourcentage : Rat
  statut : Statut
deriving DecidableEq, Repr

/-- The per-component detail line built by `getNoteFinaleUE`. -/
structure DetailLigne where
  typeComposante : String
  note : Rat
  noteSur20 : Rat
  pourcentage : Rat
  contribution : Rat
deriving DecidableEq, Repr

/-- The object returned by `EvaluationService.getNoteFinaleUE`. -/
structure NoteFinaleResult where
  noteFinale : Rat
  estCapitalisee : Bool
  mention : String
  details : List DetailLigne
deriving DecidableEq, Repr

/-- Status filter of the aggregation loop:
`evalItem.statut === 'definitif' || evalItem.statut === 'rattrapage'`. -/
def qualifie (s : Statut) : Bool := s = .definitif || s = .rattrapage

/-- Embeds `EvaluationService.calculateMention` (evaluation.service.ts:439-447). -/
def calculateMention (note : Rat) : String :=
  if note ≥ 18 then "excellent"
  else if note ≥ 16 then "tres-bien"
  else if note ≥ 14 then "bien"
  else if note ≥ 12 then "assez-bien"
  else if note ≥ 10 then "passable"
  else if note ≥ 5 then "echec"
  else "elimine"

/-- The accumulation `noteFinale += evalItem.note_sur_20 * (evalItem.pourcentage / 100)`
over the qualifying entries (evaluation.service.ts:344-357), before rounding. -/
def noteFinaleBrute (evals : List EvalUE) : Rat :=
  evals.foldl
    (fun acc e => if qualifie e.statut then acc + e.noteSur20 * (e.pourcentage / 100) else acc) 0

/-- The `details` array pushed by the same loop. -/
def detailsLignes (evals : List EvalUE) : List DetailLigne :=
  (evals.filter fun e => qualifie e.statut).map fun e =>
    ⟨e.typeComposante, e.note, e.noteSur20, e.pourcentage, e.noteSur20 * (e.pourcentage / 100)⟩

/-- Embeds `EvaluationService.getNoteFinaleUE` (evaluation.service.ts:302-377).
`etudiantValide` and `ueExiste` stand for the results of
`validateEtudiant` / `findByCode`, `evals` for the rows returned by
`findByEtudiantAndUE`. -/
def getNoteFinaleUE (etudiantValide : Bool) (ueExiste : Bool) (evals : List EvalUE) :
    Except ServiceErr NoteFinaleResult :=
  if !etudiantValide then .error ⟨"Student not found", 404, "ETUDIANT_NOT_FOUND"⟩
  else if !ueExiste then .error ⟨"UE not found", 404, "UE_NOT_FOUND"⟩
  else
    let noteFinale := noteFinaleBrute evals
    .ok ⟨round2 noteFinale, decide (noteFinale ≥ 10), calculateMention noteFinale,
      detailsLignes evals⟩

/-- Specification-side formula for the raw final grade: the sum, over
exactly the final/retake entries, of `normalizedMark × weight/100`. -/
def specSommeFinale (evals : List EvalUE) : Rat :=
  ((evals.filter fun e => qualifie e.statut).map fun e => e.noteSur20 * (e.pourcentage / 100)).sum

/-! ## The database-side recomputation trigger
(`notation.update_note_finale_ue`, migrations/001:241-297) -/

/-- A row of the materialised table `notation.notes_finales_ue`. -/
structure NoteFinaleRow where
  noteFinale : Rat
  estCapitalisee : Bool
  mention : String
  versionCalcul : Nat
deriving DecidableEq, Repr

/-- The `WHEN (NEW.statut IN ('definitif', 'rattrapage'))` condition of
trigger `trg_update_note_finale`. -/
def triggerSeDeclenche (s : Statut) : Bool := s = .definitif || s = .rattrapage

/-- The mention `CASE` of the trigger body (note: its lowest band is
`'echec'`; the trigger has no `'elimine'` case). -/
def mentionTrigger (s : Rat) : String :=
  if s ≥ 18 then "excellent"
  else if s ≥ 16 then "tres-bien"
  else if s ≥ 14 then "bien"
  else if s ≥ 12 then "assez-bien"
  else if s ≥ 10 then "passable"
  else "echec"

/-- The row the trigger body upserts into `notes_finales_ue`:
sum over final/retake entries of `note_sur_20 * pourcentage / 100`,
capitalisation and mention derived from that sum, version `1` on insert
or incremented on conflict.  (The DECIMAL(5,2) column truncation of
`note_finale` is not modelled; no claim depends on it.) -/
def updateNoteFinaleUE (entriesApres : List EvalUE) (prev : Option NoteFinaleRow) :
    NoteFinaleRow :=
  let s := specSommeFinale entriesApres
  ⟨s, decide (s ≥ 10), mentionTrigger s,
    match prev with | none => 1 | some p => p.versionCalcul + 1⟩

/-- Effect on the `notes_finales_ue` row of a (student, unit) pair of a
write to `resultats_evaluation` whose new status is `newStatut`:
the trigger fires only when `newStatut` is final/retake. -/
def ecritureResultat (prev : Option NoteFinaleRow) (entriesApres : List EvalUE)
    (newStatut : Statut) : Option NoteFinaleRow :=
  if triggerSeDeclenche newStatut then some (updateNoteFinaleUE entriesApres prev) else prev

/-! ## Evaluation ledger writes (`EvaluationService`) -/

/-- A row of `notation.composantes_evaluation` (the fields the embedded
services read). -/
structure Composante where
  id : Nat
  codeUe : String
  typeComposante : String
  pourcentage : Rat
  nbPoints : Int
deriving DecidableEq, Repr

/-- A row of `notation.resultats_evaluation`.  `noteSur20` is the
generated column; dates are abstracted to a counter. -/
structure EvalRow where
  id : Nat
  matriculeEtudiant : String
  composanteId : Nat
  note : Rat
  noteSur20 : Rat
  dateEvaluation : Nat
  saisiePar : String
  statut : Statut
  modeSaisie : String
  commentaire : Option String
  version : Nat
deriving DecidableEq, Repr

/-- The generated column `note_sur_20` (migrations/001:61-66):
`0` when the component point scale is `0`, else `note * 20 / nb_points`. -/
def noteSur20 (note : Rat) (nbPoints : Int) : Rat :=
  if nbPoints = 0 then 0 else note * 20 / (nbPoints : Rat)

/-- The payload of `EvaluationService.createEvaluation`. -/
structure CreateEvaluationData where
  matriculeEtudiant : String
  composanteId : Nat
  note : Rat
  dateEvaluation : Nat
  saisiePar : String
  commentaire : Option String
deriving DecidableEq, Repr

/-- Whether `createEvaluation` updated the existing row or inserted a
new one (the repository action taken on the success path). -/
inductive CreateOutcome
  | updated (row : EvalRow)
  | created (row : EvalRow)
deriving DecidableEq, Repr

/-- Embeds `EvaluationService.createEvaluation` (evaluation.service.ts:22-102).
`composante` stands for `getComposante`, `etudiantValide` for
`validateEtudiant`, `canSaisir` for `canSaisirNote`, `existing` for
`findByEtudiantAndComposante`, `newId` for the id the insert would
allocate. -/
def createEvaluation (composante : Option Composante) (etudiantValide : Bool)
    (canSaisir : Bool) (existing : Option EvalRow) (newId : Nat)
    (data : CreateEvaluationData) : Except ServiceErr CreateOutcome :=
  match composante with
  | none => .error ⟨"Evaluation component not found", 404, "COMPOSANTE_NOT_FOUND"⟩
  | some comp =>
    if !etudiantValide then .error ⟨"Student not found or invalid", 400, "INVALID_ETUDIANT"⟩
    else if !canSaisir then
      .error ⟨"Teacher not authorized to enter grades for this UE", 403, "NOT_AUTHORIZED"⟩
    else if data.note < 0 ∨ data.note > (comp.nbPoints : Rat) then
      .error ⟨"Note must be between 0 and " ++ toString comp.nbPoints, 400, "INVALID_NOTE_RANGE"⟩
    else
      match existing with
      | some ex => .ok (.updated { ex with
          note := data.note,
          noteSur20 := noteSur20 data.note comp.nbPoints,
          dateEvaluation := data.dateEvaluation,
          commentaire := data.commentaire,
          version := ex.version + 1 })
      | none => .ok (.created
          ⟨newId, data.matriculeEtudiant, data.composanteId, data.note,
            noteSur20 data.note comp.nbPoints, data.dateEvaluation, data.saisiePar,
            .provisoire, "manuel", data.commentaire, 1⟩)

/-- Embeds `EvaluationService.updateEvaluationStatus` (evaluation.service.ts:379-437).
`findResult` stands for `findById`, `canUpdate` for `canUpdateNote`,
`canRattrapage` for `canSetRattrapage` (only consulted for the
`rattrapage` target). -/
def updateEvaluationStatus (findResult : Option EvalRow) (canUpdate : Bool)
    (canRattrapage : Bool) (statut : Statut) : Except ServiceErr EvalRow :=
  match findResult with
  | none => .error ⟨"Evaluation not found", 404, "EVALUATION_NOT_FOUND"⟩
  | some evaluation =>
    if !canUpdate then
      .error ⟨"Not authorized to update this evaluation", 403, "NOT_AUTHORIZED"⟩
    else if statut = .rattrapage ∧ !canRattrapage then
      .error ⟨"Cannot set evaluation as rattrapage", 400, "CANNOT_SET_RATTRAPAGE"⟩
    else .ok { evaluation with statut := statut, version := evaluation.version + 1 }

/-- Embeds `EvaluationService.validateEvaluation` (evaluation.service.ts:217-256).
The only status-dependent restriction of the ledger write paths: an
entry already `definitif` cannot be validated again.  (The repository
update sets only `statut`; the version is not incremented here.) -/
def validateEvaluation (findResult : Option EvalRow) (canValidate : Bool) :
    Except ServiceErr EvalRow :=
  match findResult with
  | none => .error ⟨"Evaluation not found", 404, "EVALUATION_NOT_FOUND"⟩
  | some evaluation =>
    if evaluation.statut = .definitif then
      .error ⟨"Evaluation already validated", 400, "ALREADY_VALIDATED"⟩
    else if !canValidate then
      .error ⟨"Not authorized to validate this evaluation", 403, "NOT_AUTHORIZED"⟩
    else .ok { evaluation with statut := .definitif }

/-! ## Batch grade entry (`EvaluationService.createBatchEvaluations`) -/

/-- One element of `data.evaluations` in a batch submission. -/
structure BatchEvalItem where
  matriculeEtudiant : String
  note : Rat
  commentaire : Option String
deriving DecidableEq, Repr

/-- The counters object returned by `createBatchEvaluations`:
`{ success, failed, errors }`, with `errors` carrying
`(matricule, error.message)` pairs in processing order. -/
structure BatchResult where
  success : Nat
  failed : Nat
  errors : List (String × String)
deriving DecidableEq, Repr

/-- The slice of `resultats_evaluation` for the batch component:
one stored row per student (abstracting the repository state the batch
loop reads and writes). -/
structure LigneResultat where
  matricule : String
  note : Rat
  commentaire : Option String
  version : Nat
deriving DecidableEq, Repr

/-- Validity of one batch item: the student resolves and the mark is in
`[0, nb_points]` (the two per-item checks of the loop body). -/
def itemValide (etudiantValide : String → Bool) (nbPoints : Int) (item : BatchEvalItem) : Bool :=
  etudiantValide item.matriculeEtudiant && !(item.note < 0 ∨ item.note > (nbPoints : Rat))

/-- The error message the loop body records for an invalid item. -/
def messageEchec (etudiantValide : String → Bool) (nbPoints : Int) (item : BatchEvalItem) :
    String :=
  if !(etudiantValide item.matriculeEtudiant) then "Student not found"
  else "Note must be between 0 and " ++ toString nbPoints

/-- Store effect of one successfully processed item: update the existing
row of the (student, component) pair (version + 1) or append a new row
(version 1), mirroring `update`/`create` in the loop. -/
def enregistrerItem (store : List LigneResultat) (item : BatchEvalItem) : List LigneResultat :=
  if (store.find? fun r => r.matricule = item.matriculeEtudiant).isSome then
    store.map fun r =>
      if r.matricule = item.matriculeEtudiant then
        { r with note := item.note, commentaire := item.commentaire, version := r.version + 1 }
      else r
  else store ++ [⟨item.matriculeEtudiant, item.note, item.commentaire, 1⟩]

/-- One iteration of the `for (const evalData of data.evaluations)` loop
(evaluation.service.ts:142-199): the `try`/`catch` around the body turns
a per-item failure into a counter/error update without stopping the
loop. -/
def traiterItem (etudiantValide : String → Bool) (nbPoints : Int)
    (etat : List LigneResultat × BatchResult) (item : BatchEvalItem) :
    List LigneResultat × BatchResult :=
  let (store, res) := etat
  if itemValide etudiantValide nbPoints item then
    (enregistrerItem store item, { res with success := res.success + 1 })
  else
    (store, { res with
      failed := res.failed + 1
      errors :=
        res.errors ++ [(item.matriculeEtudiant, messageEchec etudiantValide nbPoints item)] })

/-- Embeds `EvaluationService.createBatchEvaluations` (evaluation.service.ts:104-215).
Returns the final repository slice together with the counters object. -/
def createBatchEvaluations (composante : Option Composante) (canSaisir : Bool)
    (etudiantValide : String → Bool) (store : List LigneResultat)
    (items : List BatchEvalItem) : Except ServiceErr (List LigneResultat × BatchResult) :=
  match composante with
  | none => .error ⟨"Evaluation component not found", 404, "COMPOSANTE_NOT_FOUND"⟩
  | some comp =>
    if !canSaisir then
      .error ⟨"Teacher not authorized to enter grades for this UE", 403, "NOT_AUTHORIZED"⟩
    else .ok (items.foldl (traiterItem etudiantValide comp.nbPoints) (store, ⟨0, 0, []⟩))

/-! ## Student recap (`CalculService.calculerMoyennesEtudiant`) -/

/-- A teaching unit as read by the recap loop (`getUEsByNiveau`). -/
structure UEInfo where
  codeUe : String
  nomUe : String
  creditsEcts : Nat
deriving DecidableEq, Repr

/-- Modelled from the spec: `CalculRepository.getNoteFinaleUE`, the
repository read of the materialised `notes_finales_ue` row for one
(student, unit), is not under `src/` (only its caller
`CalculService.calculerMoyennesEtudiant` is).  Per the data model a
`FinalGrade` row may be absent for a (student, unit) pair; the caller
consumes a plain `number` for every unit, so an absent row is modelled
as the numeric default `0` (the convention of the repository methods
visible in `src`, e.g. `rows[0]?.moyenne || 0`), and a present row
yields its stored final grade.  `notes` maps a unit code to the stored
final grade, when one exists. -/
def repoNoteFinaleUE (notes : String → Option Rat) (codeUe : String) : Rat :=
  (notes codeUe).getD 0

/-- The `CalculResult` object built by `calculerMoyennesEtudiant`
(per-UE `details` omitted; no claim reads them). -/
structure CalculResult where
  moyenneGenerale : Rat
  moyennePonderee : Rat
  pourcentageCapitalisation : Rat
  ueCapitalisees : Nat
  ueTotal : Nat
  creditsObtenus : Nat
  creditsTotal : Nat
deriving DecidableEq, Repr

/-- Embeds `CalculService.calculerMoyennesEtudiant` (calcul.service.ts:19-130).
The loop accumulates, over every configured unit of the level:
`totalCredits`, `creditsObtenus`/`ueCapitalisees` (units whose grade is
≥ 10), `sommeMoyennes` and `sommeMoyennesPonderees`; each accumulation
uses the grade `repoNoteFinaleUE` returned for the unit, whether or not
a final-grade row exists.  (The source's object literal refers to the
accumulator variables through snake-case shorthands; the intended
accumulators are modelled.) -/
def calculerMoyennesEtudiant (etudiantValide : Bool) (ues : List UEInfo)
    (notes : String → Option Rat) : Except ServiceErr CalculResult :=
  if !etudiantValide then
    .error ⟨"Student not found or not enrolled in this level", 404, "ETUDIANT_INVALIDE"⟩
  else if ues.length = 0 then
    .error ⟨"No UE found for this level and academic year", 404, "NO_UE_FOUND"⟩
  else
    let totalCredits := (ues.map fun ue => ue.creditsEcts).sum
    let capitalisees := ues.filter fun ue => repoNoteFinaleUE notes ue.codeUe ≥ 10
    let creditsObtenus := (capitalisees.map fun ue => ue.creditsEcts).sum
    let sommeMoyennes := (ues.map fun ue => repoNoteFinaleUE notes ue.codeUe).sum
    let sommePonderees :=
      (ues.map fun ue => repoNoteFinaleUE notes ue.codeUe * (ue.creditsEcts : Rat)).sum
    let moyenneGenerale := if ues.length > 0 then sommeMoyennes / (ues.length : Rat) else 0
    let moyennePonderee := if totalCredits > 0 then sommePonderees / (totalCredits : Rat) else 0
    let pourcentageCapitalisation :=
      if totalCredits > 0 then ((creditsObtenus : Rat) / (totalCredits : Rat)) * 100 else 0
    .ok ⟨round2 moyenneGenerale, round2 moyennePonderee, round2 pourcentageCapitalisation,
      capitalisees.length, ues.length, creditsObtenus, totalCredits⟩

/-! ## Ranking (`CalculService.calculerClassementNiveau`) -/

/-- A `recap_etudiants` row as read by the ranking query
(`moyenne_generale`/`moyenne_ponderee` are nullable columns). -/
structure Recap where
  matriculeEtudiant : String
  moyenneGenerale : Option Rat
  moyennePonderee : Option Rat
  pourcentageCapitalisation : Option Rat
  decision : Option String
deriving DecidableEq, Repr

/-- The sort comparator of calcul.service.ts:220-226: equal (`===`)
unweighted averages compare by weighted average descending, otherwise
by unweighted average descending, `null` defaulting to `0` via `|| 0`. -/
def comparerRecaps (a b : Recap) : Rat :=
  if b.moyenneGenerale = a.moyenneGenerale then
    b.moyennePonderee.getD 0 - a.moyennePonderee.getD 0
  else
    b.moyenneGenerale.getD 0 - a.moyenneGenerale.getD 0

/-- Stable insertion by a JavaScript-style numeric comparator: the new
element is placed before the first element it compares strictly less
than, hence after every element it ties with (the stability ECMAScript
guarantees for `Array.prototype.sort`). -/
def insererPar (c : α → α → Rat) (x : α) : List α → List α
  | [] => [x]
  | y :: ys => if c x y < 0 then x :: y :: ys else y :: insererPar c x ys

/-- Embeds `[...xs].sort(comparator)`, modelled as a stable sort: elements are
inserted in input order, each behind its ties. -/
def trierPar (c : α → α → Rat) (l : List α) : List α :=
  l.foldl (fun acc x => insererPar c x acc) []

/-- Embeds the `[...recaps].sort(comparator)` call of calcul.service.ts:220. -/
def trierRecaps (recaps : List Recap) : List Recap :=
  trierPar comparerRecaps recaps

/-- Embeds `CalculService.calculateMentionGenerale` (calcul.service.ts:426-432). -/
def calculateMentionGenerale (moyenne : Rat) : String :=
  if moyenne ≥ 16 then "très bien"
  else if moyenne ≥ 14 then "bien"
  else if moyenne ≥ 12 then "assez bien"
  else if moyenne ≥ 10 then "passable"
  else "echec"

/-- One line of the ranking result (student name fields, fetched from
another service, are omitted). -/
structure ClassementLigne where
  rang : Nat
  matricule : String
  moyenneGenerale : Rat
  pourcentageCapitalisation : Rat
  decision : Option String
  mentionGenerale : String
deriving DecidableEq, Repr

/-- Embeds `CalculService.calculerClassementNiveau` (calcul.service.ts:205-267):
sort the recaps by the comparator, then assign `rang = i + 1` by
position. -/
def calculerClassementNiveau (recaps : List Recap) :
    Except ServiceErr (List ClassementLigne) :=
  if recaps.length = 0 then
    .error ⟨"No students found for this level", 404, "NO_STUDENTS_FOUND"⟩
  else
    .ok ((trierRecaps recaps).enum.map fun p =>
      ⟨p.1 + 1, p.2.matriculeEtudiant, p.2.moyenneGenerale.getD 0,
        p.2.pourcentageCapitalisation.getD 0, p.2.decision,
        calculateMentionGenerale (p.2.moyenneGenerale.getD 0)⟩)

/-! ## Statistics (`CalculService.calculerStatistiquesUE`) -/

/-- The ascending numeric comparator `(a, b) => a - b` of
calcul.service.ts:157. -/
def comparerNotes (a b : Rat) : Rat := a - b

/-- Embeds the `[...notes].sort((a, b) => a - b)` call: ascending stable sort. -/
def trierNotes (notes : List Rat) : List Rat :=
  trierPar comparerNotes notes

/-- Embeds `CalculService.calculatePercentile` (calcul.service.ts:403-414):
linear interpolation between the order statistics at the 0-indexed rank
`(p/100) × (N−1)`.  Out-of-range indexing (never reached on the guarded
call sites) defaults to `0`. -/
def calculatePercentile (sorted : List Rat) (percentile : Rat) : Rat :=
  let index := (percentile / 100) * ((sorted.length : Rat) - 1)
  let lower := ⌊index⌋
  let upper := ⌈index⌉
  if lower = upper then sorted.getD lower.toNat 0
  else
    let weight := index - (lower : Rat)
    sorted.getD lower.toNat 0 * (1 - weight) + sorted.getD upper.toNat 0 * weight

/-- Embeds `Math.min(...notes)` over a list (call sites are nonempty). -/
def listeMin : List Rat → Rat
  | [] => 0
  | x :: xs => xs.foldl min x

/-- Embeds `Math.max(...notes)` over a list (call sites are nonempty). -/
def listeMax : List Rat → Rat
  | [] => 0
  | x :: xs => xs.foldl max x

/-- The `statistiques_ue` row built by `calculerStatistiquesUE`.
The source stores `ecart_type = round2(Math.sqrt(variance))`; the square
root of a rational is irrational in general, so the row keeps the
variance (`varianceUe`) the source takes the square root of — the
claim's content (population variance: divide by `N`, not `N−1`) is
exactly this quantity. -/
structure StatistiquesUE where
  nbEtudiants : Nat
  moyenneUe : Rat
  varianceUe : Rat
  noteMin : Rat
  noteMax : Rat
  q1 : Rat
  mediane : Rat
  q3 : Rat
  nbReussite : Nat
  nbEchec : Nat
  tauxReussite : Rat
deriving DecidableEq, Repr

/-- Embeds `CalculService.calculerStatistiquesUE` (calcul.service.ts:132-203),
on the final grades fetched for the unit/year. -/
def calculerStatistiquesUE (notes : List Rat) : Except ServiceErr StatistiquesUE :=
  if notes.length = 0 then
    .error ⟨"No final grades found for this UE", 404, "NO_GRADES_FOUND"⟩
  else
    let nbEtudiants := notes.length
    let moyenne := notes.sum / (nbEtudiants : Rat)
    let variance := (notes.map fun note => (note - moyenne) ^ 2).sum / (nbEtudiants : Rat)
    let sortedNotes := trierNotes notes
    let q1 := calculatePercentile sortedNotes 25
    let mediane := calculatePercentile sortedNotes 50
    let q3 := calculatePercentile sortedNotes 75
    let nbReussite := (notes.filter fun note => note ≥ 10).length
    let nbEchec := nbEtudiants - nbReussite
    let tauxReussite := ((nbReussite : Rat) / (nbEtudiants : Rat)) * 100
    .ok ⟨nbEtudiants, round2 moyenne, variance, round2 (listeMin notes), round2 (listeMax notes),
      round2 q1, round2 mediane, round2 q3, nbReussite, nbEchec, round2 tauxReussite⟩

/-- Specification-side arithmetic mean. -/
def specMoyenne (l : List Rat) : Rat := l.sum / (l.length : Rat)

/-- Specification-side population variance (denominator `N`, not `N−1`). -/
def specVariancePop (l : List Rat) : Rat :=
  (l.map fun x => (x - specMoyenne l) ^ 2).sum / (l.length : Rat)

/-- Specification-side percentile: the branch-free interpolation formula
`x⌊rank⌋ × (1−w) + x⌈rank⌉ × w` with `rank = (p/100) × (N−1)` and
`w = rank − ⌊rank⌋`. -/
def specPercentile (sorted : List Rat) (p : Rat) : Rat :=
  let rank := (p / 100) * ((sorted.length : Rat) - 1)
  let w := rank - (⌊rank⌋ : Rat)
  sorted.getD (⌊rank⌋).toNat 0 * (1 - w) + sorted.getD (⌈rank⌉).toNat 0 * w

/-! ## Deliberation eligibility (`CalculService.verifierEligibiliteDeliberation`) -/

/-- The per-level deliberation parameters (`getParamsDeliberation`). -/
structure ParamsDeliberation where
  minCapitalisation : Rat
  maxUeNonCapitalisees : Int
deriving DecidableEq, Repr

/-- One entry of the `criteres` array: criterion name, observed value,
threshold, pass flag. -/
structure Critere where
  critere : String
  valeur : Rat
  seuil : Rat
  respecte : Bool
deriving DecidableEq, Repr

/-- The object returned by `verifierEligibiliteDeliberation`. -/
structure EligibiliteResult where
  eligible : Bool
  raison : Option String
  pourcentageCapitalisation : Rat
  ueNonCapitalisees : Int
  ueTotal : Nat
  criteres : List Critere
deriving DecidableEq, Repr

/-- Embeds `CalculService.verifierEligibiliteDeliberation`
(calcul.service.ts:282-348).  `params` stands for
`getParamsDeliberation` (absent when none are configured for the
level); `stats` for the recap the service recomputes through
`calculerMoyennesEtudiant`. -/
def verifierEligibiliteDeliberation (params : Option ParamsDeliberation)
    (stats : CalculResult) : Except ServiceErr EligibiliteResult :=
  match params with
  | none =>
    .error ⟨"Deliberation parameters not found for this level", 404, "PARAMS_NOT_FOUND"⟩
  | some p =>
    let critere1 : Critere :=
      ⟨"Pourcentage de capitalisation", stats.pourcentageCapitalisation, p.minCapitalisation,
        decide (stats.pourcentageCapitalisation ≥ p.minCapitalisation)⟩
    let ueNonCapitalisees : Int := (stats.ueTotal : Int) - (stats.ueCapitalisees : Int)
    let critere2 : Critere :=
      ⟨"UE non capitalisées", (ueNonCapitalisees : Rat), (p.maxUeNonCapitalisees : Rat),
        decide (ueNonCapitalisees ≤ p.maxUeNonCapitalisees)⟩
    let eligible := critere1.respecte && critere2.respecte
    let raison :=
      if eligible then none
      else some ("Non respect des critères: " ++ String.intercalate ", "
        ((([critere1, critere2].filter fun c => !c.respecte).map fun c => c.critere)))
    .ok ⟨eligible, raison, stats.pourcentageCapitalisation, ueNonCapitalisees, stats.ueTotal,
      [critere1, critere2]⟩

/-! ## Component weight invariant
(`UEService.addComposante`/`updateComposante` and trigger
`notation.check_ue_percentage_total`, migrations/001:210-239) -/

/-- A row of `composantes_evaluation` as seen by the percentage trigger
(columns irrelevant to the weight sum omitted). -/
structure ComposanteRow where
  id : Nat
  codeUe : String
  pourcentage : Rat
deriving DecidableEq, Repr

/-- A write to `composantes_evaluation`: the service-level
`addComposante` (insert), `updateComposante` (update, possibly changing
the owning unit through the `Partial` payload), or a delete. -/
inductive OpComposante
  | inserer (c : ComposanteRow)
  | modifier (id : Nat) (codeUe : String) (pourcentage : Rat)
  | supprimer (id : Nat)
deriving DecidableEq, Repr

/-- Embeds the `SUM(pourcentage)` query over the components of one unit. -/
def sommeUe (s : List ComposanteRow) (ue : String) : Rat :=
  ((s.filter fun c => c.codeUe = ue).map fun c => c.pourcentage).sum

/-- Whether a unit has at least one component (a `NULL` sum in the
trigger means it has none). -/
def aDesComposantes (s : List ComposanteRow) (ue : String) : Bool :=
  !(s.filter fun c => c.codeUe = ue).isEmpty

/-- The trigger body `check_ue_percentage_total`: raise (reject) unless
the unit's sum is `NULL` or within `0.01` of `100`. -/
def checkUePercentageTotal (s : List ComposanteRow) (ue : String) : Bool :=
  !aDesComposantes s ue || decide (|sommeUe s ue - 100| ≤ 1/100)

/-- Row-level effect of a write (the update's `Partial` payload may set
`code_ue` and `pourcentage`; an update or delete of an unknown id
touches no row). -/
def appliquerOp (s : List ComposanteRow) : OpComposante → List ComposanteRow
  | .inserer c => s ++ [c]
  | .modifier i ue p =>
    s.map fun c => if c.id = i then { c with codeUe := ue, pourcentage := p } else c
  | .supprimer i => s.filter fun c => c.id ≠ i

/-- The unit the trigger checks: `NEW.code_ue` on insert, `OLD.code_ue`
on update or delete (`none` when the write touched no row, in which case
the per-row trigger does not fire). -/
def ueVerifiee (s : List ComposanteRow) : OpComposante → Option String
  | .inserer c => some c.codeUe
  | .modifier i _ _ => (s.find? fun c => c.id = i).map fun c => c.codeUe
  | .supprimer i => (s.find? fun c => c.id = i).map fun c => c.codeUe

/-- One guarded write: apply the row effect, then let the trigger
accept or reject (`none`) the transaction. -/
def etapeComposante (s : List ComposanteRow) (op : OpComposante) :
    Option (List ComposanteRow) :=
  let apres := appliquerOp s op
  match ueVerifiee s op with
  | none => some apres
  | some ue => if checkUePercentageTotal apres ue then some apres else none

/-- A sequence of guarded writes; a rejected write aborts the run. -/
def executerOps (s : List ComposanteRow) : List OpComposante → Option (List ComposanteRow)
  | [] => some s
  | op :: ops =>
    match etapeComposante s op with
    | none => none
    | some apres => executerOps apres ops

/-- The claimed invariant: every unit with at least one component has
its weight sum within `0.01` of `100`. -/
def invariantPourcentages (s : List ComposanteRow) : Prop :=
  ∀ ue : String, aDesComposantes s ue = true → |sommeUe s ue - 100| ≤ 1/100

/-- An update that does not move its component to another unit (inserts
and deletes impose nothing). -/
def opConserveUe (s : List ComposanteRow) : OpComposante → Prop
  | .modifier i ue _ => ∀ c ∈ s, c.id = i → c.codeUe = ue
  | _ => True

/-! ## Helper lemmas -/

theorem noteFinaleBrute_eq_aux (evals : List EvalUE) (a : Rat) :
    evals.foldl
      (fun acc e => if qualifie e.statut then acc + e.noteSur20 * (e.pourcentage / 100) else acc) a
      = a + specSommeFinale evals := by
  induction evals generalizing a with
  | nil => simp [specSommeFinale]
  | cons e es ih =>
    by_cases h : qualifie e.statut <;>
      simp [specSommeFinale, List.filter_cons, h, ih, add_assoc]

/-- The single-pass accumulation of `getNoteFinaleUE` equals the
filter-then-sum formula of the specification. -/
theorem noteFinaleBrute_eq (evals : List EvalUE) :
    noteFinaleBrute evals = specSommeFinale evals := by
  simpa using noteFinaleBrute_eq_aux evals 0

/-! ## C1 — final grade aggregation -/

/-- C1 (amended): for every resolving lookup, `getNoteFinaleUE` returns
the sum over exactly the final/retake entries of
`normalizedMark × weight/100`, rounded to two decimals; the capitalized
flag is true iff the unrounded sum is ≥ 10, and the mention is the first
matching band (≥18 excellent, ≥16 very-good, ≥14 good, ≥12 fairly-good,
≥10 pass, ≥5 fail, else eliminated) of the unrounded sum.  The example
entries {CC 12/20 at 30%, SN 14/20 at 70%} yield 13.40, capitalized,
and mention `'assez-bien'` (fairly-good, the 12–14 band). -/
theorem getNoteFinaleUE_spec (evals : List EvalUE) :
    getNoteFinaleUE true true evals =
      .ok ⟨round2 (specSommeFinale evals), decide (specSommeFinale evals ≥ 10),
        calculateMention (specSommeFinale evals), detailsLignes evals⟩ ∧
    getNoteFinaleUE true true
        [⟨"CC", 12, 12, 30, .definitif⟩, ⟨"SN", 14, 14, 70, .definitif⟩] =
      .ok ⟨134/10, true, "assez-bien",
        [⟨"CC", 12, 12, 30, 18/5⟩, ⟨"SN", 14, 14, 70, 49/5⟩]⟩ := by
  constructor
  · simp [getNoteFinaleUE, noteFinaleBrute_eq]
  · norm_num [getNoteFinaleUE, noteFinaleBrute, qualifie, detailsLignes, calculateMention,
      round2, jsRound]

/-- C1 counterexample: on the claim's own example entries the code
returns mention `'assez-bien'` (fairly-good), not `'bien'` (good): the
final grade 13.40 sits in the ≥12 band, below the ≥14 band the claim's
band list itself assigns to "good". -/
theorem getNoteFinaleUE_contre :
    (getNoteFinaleUE true true
        [⟨"CC", 12, 12, 30, .definitif⟩, ⟨"SN", 14, 14, 70, .definitif⟩]).map
      (fun r => (r.noteFinale, r.estCapitalisee, r.mention)) = .ok (134/10, true, "assez-bien") ∧
    "assez-bien" ≠ "bien" := by
  constructor
  · norm_num [getNoteFinaleUE, noteFinaleBrute, qualifie, detailsLignes, calculateMention,
      round2, jsRound, Except.map]
  · decide

/-! ## C2 — absence of qualifying entries -/

/-- C2 (amended): when a (student, unit) pair has no final/retake
entries, the database trigger never writes a `notes_finales_ue` row —
the trigger only fires on writes whose new status is final/retake, so
repeated recomputation leaves the stored state unchanged — but the read
path `getNoteFinaleUE` does return a grade of zero, with
capitalized = false and mention `'elimine'`. -/
theorem sansEntreesQualifiantes_spec (prev : Option NoteFinaleRow) (entries : List EvalUE)
    (s : Statut) (hs : triggerSeDeclenche s = false)
    (hq : ∀ e ∈ entries, qualifie e.statut = false) :
    ecritureResultat prev entries s = prev ∧
    getNoteFinaleUE true true entries = .ok ⟨0, false, "elimine", []⟩ := by
  have hfil : entries.filter (fun e => qualifie e.statut) = [] := by
    rw [List.filter_eq_nil_iff]
    intro e he
    simp [hq e he]
  refine ⟨by simp [ecritureResultat, hs], ?_⟩
  norm_num [getNoteFinaleUE, noteFinaleBrute_eq, specSommeFinale, detailsLignes, hfil,
    calculateMention, round2, jsRound]

/-- C2 witness: one provisional entry, one non-firing write. -/
theorem sansEntreesQualifiantes_witness :
    triggerSeDeclenche .provisoire = false ∧
    (ecritureResultat none [⟨"CC", 12, 12, 100, .provisoire⟩] .provisoire = none ∧
      getNoteFinaleUE true true [⟨"CC", 12, 12, 100, .provisoire⟩] =
        .ok ⟨0, false, "elimine", []⟩) :=
  ⟨rfl, sansEntreesQualifiantes_spec none _ .provisoire rfl
    (by intro e he; simp at he; subst he; rfl)⟩

/-- C2 counterexample: with a single provisional (non-qualifying) entry
the service returns a zero final grade with capitalized = false and
mention `'elimine'` — the claim states no such zero grade is ever
produced or returned. -/
theorem getNoteFinaleUE_zero_contre :
    getNoteFinaleUE true true [⟨"CC", 12, 12, 100, .provisoire⟩] =
      .ok ⟨0, false, "elimine", []⟩ := by
  have h1 : qualifie .provisoire = false := rfl
  norm_num [getNoteFinaleUE, noteFinaleBrute, detailsLignes, h1, calculateMention,
    round2, jsRound]

/-! ## C4 — status transitions -/

/-- C4 (amended): `updateEvaluationStatus` enforces no status state
machine: for a found entry and an authorized actor, every requested
target status is applied whatever the current status — the entry's
status is overwritten and its version incremented — with the single
caveat that the `rattrapage` target additionally requires the
`canSetRattrapage` eligibility check.  The only failures are
entry-not-found, not-authorized and the failed rattrapage check; no
`InvalidStatusTransition` error exists.  Separately,
`validateEvaluation` refuses only to re-validate an entry already
`definitif`. -/
theorem updateEvaluationStatus_spec (e : EvalRow) (canR : Bool) (st : Statut)
    (hR : st = .rattrapage → canR = true) :
    updateEvaluationStatus (some e) true canR st =
      .ok { e with statut := st, version := e.version + 1 } ∧
    updateEvaluationStatus none true canR st =
      .error ⟨"Evaluation not found", 404, "EVALUATION_NOT_FOUND"⟩ ∧
    updateEvaluationStatus (some e) false canR st =
      .error ⟨"Not authorized to update this evaluation", 403, "NOT_AUTHORIZED"⟩ ∧
    updateEvaluationStatus (some e) true false .rattrapage =
      .error ⟨"Cannot set evaluation as rattrapage", 400, "CANNOT_SET_RATTRAPAGE"⟩ ∧
    validateEvaluation (some { e with statut := .definitif }) true =
      .error ⟨"Evaluation already validated", 400, "ALREADY_VALIDATED"⟩ := by
  refine ⟨?_, rfl, rfl, rfl, rfl⟩
  by_cases h : st = .rattrapage
  · simp [updateEvaluationStatus, h, hR h]
  · simp [updateEvaluationStatus, h]

/-- C4 witness: a cancelled entry accepts any target status. -/
theorem updateEvaluationStatus_witness :
    updateEvaluationStatus
        (some ⟨1, "ETU001", 7, 12, 12, 0, "ENS001", .annule, "manuel", none, 3⟩) true true
        .provisoire =
      .ok ⟨1, "ETU001", 7, 12, 12, 0, "ENS001", .provisoire, "manuel", none, 4⟩ :=
  (updateEvaluationStatus_spec
    ⟨1, "ETU001", 7, 12, 12, 0, "ENS001", .annule, "manuel", none, 3⟩ true .provisoire
    (fun h => by cases h)).1

/-- C4 counterexample: the transition `annule → provisoire` — forbidden
by the claim's state machine (`annule` is terminal, so the claim demands
an `InvalidStatusTransition` failure) — succeeds: the entry is updated
and its version incremented. -/
theorem updateEvaluationStatus_contre :
    updateEvaluationStatus
        (some ⟨2, "ETU002", 9, 15, 15, 0, "ENS001", .annule, "manuel", none, 1⟩) true true
        .provisoire =
      .ok ⟨2, "ETU002", 9, 15, 15, 0, "ENS001", .provisoire, "manuel", none, 2⟩ := by
  simp [updateEvaluationStatus]

/-! ## C3 — student recap averages -/

/-- C3 (amended): the recap averages every configured unit of the
level/year: the unweighted average divides the sum of the grades the
repository returned — an absent final-grade row contributing the numeric
default `0` — by the number of configured units, and the weighted
average divides `Σ(grade × credits)` by the total credits of all
configured units; `ueTotal` counts all configured units; a unit is
counted capitalized when its returned grade is ≥ 10.  The recap fails
with `NO_UE_FOUND` when the level/year has zero configured units. -/
theorem calculerMoyennesEtudiant_spec (ues : List UEInfo) (notes : String → Option Rat)
    (h : ues ≠ []) (hcred : 0 < (ues.map fun ue => ue.creditsEcts).sum) :
    calculerMoyennesEtudiant true ues notes = .ok
      ⟨round2 ((ues.map fun ue => repoNoteFinaleUE notes ue.codeUe).sum / (ues.length : Rat)),
       round2 ((ues.map fun ue => repoNoteFinaleUE notes ue.codeUe * (ue.creditsEcts : Rat)).sum
         / (((ues.map fun ue => ue.creditsEcts).sum : Nat) : Rat)),
       round2 (((((ues.filter fun ue => repoNoteFinaleUE notes ue.codeUe ≥ 10).map
           fun ue => ue.creditsEcts).sum : Nat) : Rat)
         / (((ues.map fun ue => ue.creditsEcts).sum : Nat) : Rat) * 100),
       (ues.filter fun ue => repoNoteFinaleUE notes ue.codeUe ≥ 10).length,
       ues.length,
       ((ues.filter fun ue => repoNoteFinaleUE notes ue.codeUe ≥ 10).map
         fun ue => ue.creditsEcts).sum,
       (ues.map fun ue => ue.creditsEcts).sum⟩ ∧
    calculerMoyennesEtudiant true [] notes =
      .error ⟨"No UE found for this level and academic year", 404, "NO_UE_FOUND"⟩ := by
  have h0 : ¬ ues.length = 0 := by simpa [List.length_eq_zero] using h
  have hl : 0 < ues.length := Nat.pos_of_ne_zero h0
  exact ⟨by simp [calculerMoyennesEtudiant, h0, hl, hcred], rfl⟩

/-- C3 witness: a single unit with a stored final grade of 12. -/
theorem calculerMoyennesEtudiant_witness :
    ([(⟨"INF201", "Algorithmique Avancée", 5⟩ : UEInfo)] ≠ []) ∧
    0 < ([(⟨"INF201", "Algorithmique Avancée", 5⟩ : UEInfo)].map fun ue => ue.creditsEcts).sum ∧
    calculerMoyennesEtudiant true [⟨"INF201", "Algorithmique Avancée", 5⟩]
        (fun _ => some 12) = .ok ⟨12, 12, 100, 1, 1, 5, 5⟩ :=
  ⟨by simp, by simp, by
    rw [(calculerMoyennesEtudiant_spec [⟨"INF201", "Algorithmique Avancée", 5⟩]
      (fun _ => some 12) (by simp) (by simp)).1]
    norm_num [repoNoteFinaleUE, round2, jsRound]⟩

/-- C3 counterexample: two configured units, only INF201 (credits 5,
grade 16) evaluated, INF202 (credits 6) without a final-grade row.  The
claim demands unweighted average 16 (mean over present grades only) and
weighted average 16; the code returns 8 = (16 + 0)/2 and
7.27 = 80/11 — the absent unit contributes a zero to both averages. -/
theorem calculerMoyennesEtudiant_contre :
    calculerMoyennesEtudiant true
        [⟨"INF201", "Algorithmique Avancée", 5⟩, ⟨"INF202", "Bases de Données", 6⟩]
        (fun c => if c = "INF201" then some 16 else none) =
      .ok ⟨8, 727/100, 4545/100, 1, 2, 5, 11⟩ ∧
    (8 : Rat) ≠ 16 := by
  have e2 : (if ("INF202" : String) = "INF201" then some (16 : Rat) else none) = none := by
    rw [if_neg (by decide)]
  constructor
  · norm_num [calculerMoyennesEtudiant, repoNoteFinaleUE, round2, jsRound, e2]
  · norm_num

/-! ## C5 — recording an evaluation entry -/

/-- C5: `createEvaluation` fails with `INVALID_NOTE_RANGE` whenever the
raw mark is outside `[0, nb_points]`, with `COMPOSANTE_NOT_FOUND` /
`INVALID_ETUDIANT` when the references do not resolve; when an entry
already exists for the (student, component) pair it updates it — mark,
date and comment overwritten, version incremented by exactly 1, same
row id — instead of inserting a duplicate, and otherwise inserts a new
provisional row at version 1; the generated 20-point mark is
`mark × 20 / nb_points`, or `0` when `nb_points` is `0`. -/
theorem createEvaluation_spec (comp : Composante) (ex : EvalRow) (d : CreateEvaluationData)
    (newId : Nat) (hrange : ¬(d.note < 0 ∨ d.note > (comp.nbPoints : Rat))) :
    createEvaluation none true true (some ex) newId d =
      .error ⟨"Evaluation component not found", 404, "COMPOSANTE_NOT_FOUND"⟩ ∧
    createEvaluation (some comp) false true (some ex) newId d =
      .error ⟨"Student not found or invalid", 400, "INVALID_ETUDIANT"⟩ ∧
    (∀ d' : CreateEvaluationData, (d'.note < 0 ∨ d'.note > (comp.nbPoints : Rat)) →
      createEvaluation (some comp) true true (some ex) newId d' =
        .error ⟨"Note must be between 0 and " ++ toString comp.nbPoints, 400,
          "INVALID_NOTE_RANGE"⟩) ∧
    createEvaluation (some comp) true true (some ex) newId d =
      .ok (.updated { ex with
        note := d.note
        noteSur20 := noteSur20 d.note comp.nbPoints
        dateEvaluation := d.dateEvaluation
        commentaire := d.commentaire
        version := ex.version + 1 }) ∧
    createEvaluation (some comp) true true none newId d =
      .ok (.created ⟨newId, d.matriculeEtudiant, d.composanteId, d.note,
        noteSur20 d.note comp.nbPoints, d.dateEvaluation, d.saisiePar, .provisoire, "manuel",
        d.commentaire, 1⟩) ∧
    (comp.nbPoints = 0 → noteSur20 d.note comp.nbPoints = 0) ∧
    (comp.nbPoints ≠ 0 → noteSur20 d.note comp.nbPoints = d.note * 20 / (comp.nbPoints : Rat)) := by
  refine ⟨rfl, rfl, ?_, ?_, ?_, ?_, ?_⟩
  · intro d' hd'
    simp [createEvaluation, hd']
  · simp [createEvaluation, hrange]
  · simp [createEvaluation, hrange]
  · intro hz
    simp [noteSur20, hz]
  · intro hz
    simp [noteSur20, hz]

/-- C5 witness: a mark of 15 on a 20-point component, no existing
entry: a new provisional row at version 1 is inserted. -/
theorem createEvaluation_witness :
    ¬(((15 : Rat) < 0 ∨ (15 : Rat) > (((20 : Int)) : Rat))) ∧
    createEvaluation (some ⟨7, "INF201", "CC", 30, 20⟩) true true none 42
        ⟨"ETU001", 7, 15, 3, "ENS001", none⟩ =
      .ok (.created ⟨42, "ETU001", 7, 15, noteSur20 15 20, 3, "ENS001", .provisoire, "manuel",
        none, 1⟩) :=
  ⟨by norm_num,
    (createEvaluation_spec ⟨7, "INF201", "CC", 30, 20⟩
      ⟨0, "", 0, 0, 0, 0, "", .provisoire, "manuel", none, 1⟩
      ⟨"ETU001", 7, 15, 3, "ENS001", none⟩ 42 (by norm_num)).2.2.2.2.1⟩

/-! ## Stable sort lemmas -/

theorem insererPar_perm (c : α → α → Rat) (x : α) (l : List α) :
    (insererPar c x l).Perm (x :: l) := by
  induction l with
  | nil => simp [insererPar]
  | cons y ys ih =>
    by_cases h : c x y < 0
    · simp [insererPar, h]
    · simp only [insererPar, if_neg h]
      exact (ih.cons y).trans (List.Perm.swap x y ys)

theorem trierPar_perm_aux (c : α → α → Rat) (l : List α) :
    ∀ acc : List α, (l.foldl (fun a x => insererPar c x a) acc).Perm (acc ++ l) := by
  induction l with
  | nil => intro acc; simp
  | cons x xs ih =>
    intro acc
    have h1 := ih (insererPar c x acc)
    have h2 : (insererPar c x acc ++ xs).Perm ((x :: acc) ++ xs) :=
      (insererPar_perm c x acc).append_right xs
    have h3 : ((x :: acc) ++ xs).Perm (acc ++ x :: xs) := List.perm_middle.symm
    simpa using (h1.trans h2).trans h3

/-- The stable sort is a permutation of its input. -/
theorem trierPar_perm (c : α → α → Rat) (l : List α) : (trierPar c l).Perm l := by
  simpa [trierPar] using trierPar_perm_aux c l []

theorem insererPar_head? (c : α → α → Rat) (x : α) (l : List α) :
    (insererPar c x l).head? = some x ∨ (insererPar c x l).head? = l.head? := by
  cases l with
  | nil => left; rfl
  | cons y ys =>
    by_cases h : c x y < 0
    · left; simp [insererPar, h]
    · right; simp [insererPar, h]

theorem insererPar_chain (c : α → α → Rat) (hc : ∀ a b, ¬ c a b < 0 → c b a ≤ 0) (x : α)
    (l : List α) (h : List.Chain' (fun a b => c a b ≤ 0) l) :
    List.Chain' (fun a b => c a b ≤ 0) (insererPar c x l) := by
  induction l with
  | nil => simp [insererPar]
  | cons y ys ih =>
    by_cases hxy : c x y < 0
    · simp only [insererPar, if_pos hxy]
      exact List.chain'_cons.mpr ⟨hxy.le, h⟩
    · simp only [insererPar, if_neg hxy]
      refine List.chain'_cons'.mpr ⟨?_, ih h.tail⟩
      intro b hb
      rcases insererPar_head? c x ys with h1 | h1
      · rw [h1] at hb
        cases hb
        exact hc x y hxy
      · rw [h1] at hb
        cases ys with
        | nil => cases hb
        | cons z zs =>
          have hz : b = z := by simpa [eq_comm] using hb
          subst hz
          exact (List.chain'_cons.mp h).1

/-- If the comparator is antisymmetric in sign, the stable sort's output
is ordered by it (each element compares ≤ 0 against its successor). -/
theorem trierPar_chain (c : α → α → Rat) (hc : ∀ a b, ¬ c a b < 0 → c b a ≤ 0) (l : List α) :
    List.Chain' (fun a b => c a b ≤ 0) (trierPar c l) := by
  have key : ∀ acc : List α, List.Chain' (fun a b => c a b ≤ 0) acc →
      List.Chain' (fun a b => c a b ≤ 0) (l.foldl (fun a x => insererPar c x a) acc) := by
    induction l with
    | nil => intro acc h; simpa
    | cons x xs ih =>
      intro acc h
      simpa using ih (insererPar c x acc) (insererPar_chain c hc x acc h)
  simpa [trierPar] using key [] (by simp)

theorem comparerRecaps_neg (a b : Recap) : comparerRecaps a b = -comparerRecaps b a := by
  unfold comparerRecaps
  by_cases h : b.moyenneGenerale = a.moyenneGenerale
  · rw [if_pos h, if_pos h.symm]
    ring
  · rw [if_neg h, if_neg (fun hh => h hh.symm)]
    ring

theorem comparerRecaps_total (a b : Recap) (h : ¬ comparerRecaps a b < 0) :
    comparerRecaps b a ≤ 0 := by
  have := comparerRecaps_neg a b
  push_neg at h
  linarith

theorem enum_succ_eq_range' (l : List β) :
    (l.enum.map fun p => p.1 + 1) = List.range' 1 l.length := by
  rw [show (fun p : Nat × β => p.1 + 1) = ((· + 1) ∘ Prod.fst) from rfl, ← List.map_map,
    List.enum_map_fst, List.range'_eq_map_range]
  exact List.map_congr_left fun a _ => Nat.add_comm a 1

theorem enum_map_snd_comp (l : List β) (g : β → γ) :
    (l.enum.map fun p => g p.2) = l.map g := by
  rw [show (fun p : Nat × β => g p.2) = (g ∘ Prod.snd) from rfl, ← List.map_map,
    List.enum_map_snd]

/-! ## C6 — ranking -/

/-- C6 (amended): `calculerClassementNiveau` sorts the recaps
descending by unweighted average with ties broken by weighted average
descending; there is no tertiary tie-break — recaps tying on both keys
keep the input (repository) order, the sort being stable — and ranks
are assigned as distinct sequential 1-based positions, so tied students
never share a rank; averages [15.0, 15.0, 12.0] receive ranks 1, 2, 3.
It fails with `NO_STUDENTS_FOUND` on an empty recap set. -/
theorem calculerClassementNiveau_spec (recaps : List Recap) (h : recaps ≠ []) :
    (∃ L, calculerClassementNiveau recaps = .ok L ∧
      L.length = recaps.length ∧
      (L.map fun x => x.rang) = List.range' 1 recaps.length ∧
      (L.map fun x => x.matricule) = (trierRecaps recaps).map fun r => r.matriculeEtudiant) ∧
    (trierRecaps recaps).Perm recaps ∧
    List.Chain' (fun a b => comparerRecaps a b ≤ 0) (trierRecaps recaps) ∧
    calculerClassementNiveau [] =
      .error ⟨"No students found for this level", 404, "NO_STUDENTS_FOUND"⟩ ∧
    (calculerClassementNiveau
        [⟨"ETU003", some 12, some 12, some 50, none⟩,
         ⟨"ETU001", some 15, some 14, some 80, none⟩,
         ⟨"ETU002", some 15, some 13, some 70, none⟩]).map
        (fun L => L.map fun x => (x.rang, x.matricule)) =
      .ok [(1, "ETU001"), (2, "ETU002"), (3, "ETU003")] := by
  have h0 : ¬ recaps.length = 0 := by simpa [List.length_eq_zero] using h
  have hlen : (trierRecaps recaps).length = recaps.length :=
    (trierPar_perm comparerRecaps recaps).length_eq
  refine ⟨⟨(trierRecaps recaps).enum.map fun p =>
      ⟨p.1 + 1, p.2.matriculeEtudiant, p.2.moyenneGenerale.getD 0,
        p.2.pourcentageCapitalisation.getD 0, p.2.decision,
        calculateMentionGenerale (p.2.moyenneGenerale.getD 0)⟩,
      by simp [calculerClassementNiveau, h0], ?_, ?_, ?_⟩,
    trierPar_perm comparerRecaps recaps,
    trierPar_chain comparerRecaps comparerRecaps_total recaps, rfl, ?_⟩
  · simp [hlen]
  · rw [List.map_map]
    have := enum_succ_eq_range' (trierRecaps recaps)
    rw [hlen] at this
    exact this
  · rw [List.map_map]
    exact enum_map_snd_comp (trierRecaps recaps) fun r => r.matriculeEtudiant
  · norm_num [calculerClassementNiveau, trierRecaps, trierPar, insererPar, comparerRecaps,
      calculateMentionGenerale, Except.map, List.enum, List.enumFrom]

/-- C6 witness: a singleton recap set. -/
theorem calculerClassementNiveau_witness :
    ([(⟨"ETU001", some 15, some 14, some 80, none⟩ : Recap)] ≠ []) ∧
    (trierRecaps [⟨"ETU001", some 15, some 14, some 80, none⟩]).Perm
      [⟨"ETU001", some 15, some 14, some 80, none⟩] :=
  ⟨by simp,
    (calculerClassementNiveau_spec [⟨"ETU001", some 15, some 14, some 80, none⟩]
      (by simp)).2.1⟩

/-- C6 counterexample: two recaps tying on both averages, fetched in the
order ETU002 then ETU001: the code keeps the input order and ranks
ETU002 first — the claim's tertiary tie-break (student identifier
ascending) would rank ETU001 first. -/
theorem calculerClassementNiveau_contre :
    (calculerClassementNiveau
        [⟨"ETU002", some 15, some 12, some 50, none⟩,
         ⟨"ETU001", some 15, some 12, some 50, none⟩]).map
        (fun L => L.map fun x => (x.rang, x.matricule)) =
      .ok [(1, "ETU002"), (2, "ETU001")] ∧
    ("ETU001" : String) < "ETU002" := by
  constructor
  · norm_num [calculerClassementNiveau, trierRecaps, trierPar, insererPar, comparerRecaps,
      calculateMentionGenerale, Except.map, List.enum, List.enumFrom]
  · rw [String.lt_iff_toList_lt]
    decide

/-! ## C7 — unit statistics -/

/-- The branching interpolation of `calculatePercentile` equals the
branch-free formula `x⌊rank⌋ × (1−w) + x⌈rank⌉ × w`: when floor and
ceiling coincide the weight is zero. -/
theorem calculatePercentile_eq (sorted : List Rat) (p : Rat) :
    calculatePercentile sorted p = specPercentile sorted p := by
  simp only [calculatePercentile, specPercentile]
  set e := (p / 100) * ((sorted.length : Rat) - 1) with he
  by_cases h : ⌊e⌋ = ⌈e⌉
  · rw [if_pos h]
    have hc : ((⌊e⌋ : Int) : Rat) = ((⌈e⌉ : Int) : Rat) := by rw [h]
    have h1 : (⌊e⌋ : Rat) ≤ e := Int.floor_le e
    have h2 : e ≤ (⌈e⌉ : Rat) := Int.le_ceil e
    have hw : e - (⌊e⌋ : Rat) = 0 := by
      rw [← hc] at h2
      linarith
    rw [hw, ← h]
    ring
  · rw [if_neg h]

/-- Unfolding equation of `calculerStatistiquesUE` on a non-empty
grade list. -/
theorem calculerStatistiquesUE_eq (notes : List Rat) (h0 : ¬ notes.length = 0) :
    calculerStatistiquesUE notes = .ok
      ⟨notes.length, round2 (notes.sum / (notes.length : Rat)),
        (notes.map fun note => (note - notes.sum / (notes.length : Rat)) ^ 2).sum
          / (notes.length : Rat),
        round2 (listeMin notes), round2 (listeMax notes),
        round2 (calculatePercentile (trierNotes notes) 25),
        round2 (calculatePercentile (trierNotes notes) 50),
        round2 (calculatePercentile (trierNotes notes) 75),
        (notes.filter fun note => note ≥ 10).length,
        notes.length - (notes.filter fun note => note ≥ 10).length,
        round2 ((((notes.filter fun note => note ≥ 10).length : Rat) / (notes.length : Rat))
          * 100)⟩ := by
  unfold calculerStatistiquesUE
  rw [if_neg h0]

/-- C7: on a non-empty grade list the statistics are: the arithmetic
mean; the population variance (denominator `N`, not `N−1` — the source
stores its square root); Q1, median and Q3 by linear interpolation at
rank `(p/100) × (N−1)` over the ascending order statistics (the sort is
a sorted permutation of the grades); pass count = grades ≥ 10, fail
count = N − pass, pass rate = pass/N × 100; the rational outputs rounded
to two decimals.  Grades [8,10,12,14,16,18,20] yield mean 14, median 14
and pass rate 85.71; an empty grade set fails with `NO_GRADES_FOUND`. -/
theorem calculerStatistiquesUE_spec (notes : List Rat) (h : notes ≠ []) :
    calculerStatistiquesUE notes = .ok
      ⟨notes.length, round2 (specMoyenne notes), specVariancePop notes,
        round2 (listeMin notes), round2 (listeMax notes),
        round2 (specPercentile (trierNotes notes) 25),
        round2 (specPercentile (trierNotes notes) 50),
        round2 (specPercentile (trierNotes notes) 75),
        (notes.filter fun note => note ≥ 10).length,
        notes.length - (notes.filter fun note => note ≥ 10).length,
        round2 ((((notes.filter fun note => note ≥ 10).length : Rat) / (notes.length : Rat))
          * 100)⟩ ∧
    (trierNotes notes).Perm notes ∧
    List.Chain' (· ≤ ·) (trierNotes notes) ∧
    calculerStatistiquesUE [] =
      .error ⟨"No final grades found for this UE", 404, "NO_GRADES_FOUND"⟩ ∧
    (calculerStatistiquesUE [8, 10, 12, 14, 16, 18, 20]).map
      (fun s => (s.moyenneUe, s.mediane, s.tauxReussite)) = .ok (14, 14, 8571/100) := by
  have h0 : ¬ notes.length = 0 := by simpa [List.length_eq_zero] using h
  refine ⟨?_, trierPar_perm comparerNotes notes, ?_, rfl, ?_⟩
  · rw [calculerStatistiquesUE_eq notes h0]
    simp only [calculatePercentile_eq]
    rfl
  · have hch := trierPar_chain comparerNotes
      (fun a b hab => by
        simp only [comparerNotes, not_lt] at hab
        simp only [comparerNotes]
        linarith)
      notes
    exact hch.imp fun a b hab => by
      simp only [comparerNotes, sub_nonpos] at hab
      exact hab
  · have hsort : trierNotes [8, 10, 12, 14, 16, 18, 20] = [8, 10, 12, 14, 16, 18, 20] := by
      norm_num [trierNotes, trierPar, insererPar, comparerNotes]
    rw [calculerStatistiquesUE_eq [8, 10, 12, 14, 16, 18, 20] (by norm_num), hsort]
    simp only [Except.map]
    norm_num [calculatePercentile, round2, jsRound,
      (show Int.toNat 3 = 3 from rfl), (show Int.toNat 1 = 1 from rfl),
      (show Int.toNat 4 = 4 from rfl)]

/-- C7 witness: the claim's example grade list. -/
theorem calculerStatistiquesUE_witness :
    ([8, 10, 12, 14, 16, 18, 20] : List Rat) ≠ [] ∧
    (calculerStatistiquesUE [8, 10, 12, 14, 16, 18, 20]).map
      (fun s => (s.moyenneUe, s.mediane, s.tauxReussite)) = .ok (14, 14, 8571/100) :=
  ⟨by simp, (calculerStatistiquesUE_spec [8, 10, 12, 14, 16, 18, 20] (by simp)).2.2.2.2⟩

/-! ## C9 — deliberation eligibility -/

/-- C9: eligibility is granted exactly when both criteria hold —
capitalization percentage ≥ `min_capitalisation` and
non-capitalized units (`ue_total − ue_capitalisees`) ≤
`max_ue_non_capitalisees`; the output lists both criteria with observed
value, threshold and pass flag; the reason is present exactly when not
eligible and names exactly the failed criteria.  Params {80, 2} against
a recap {capitalization 75%, 1 non-capitalized of 3 units} yield
eligible = false with exactly the capitalization criterion failed.
Absent parameters fail with `PARAMS_NOT_FOUND`. -/
theorem verifierEligibiliteDeliberation_spec (p : ParamsDeliberation) (stats : CalculResult) :
    verifierEligibiliteDeliberation none stats =
      .error ⟨"Deliberation parameters not found for this level", 404, "PARAMS_NOT_FOUND"⟩ ∧
    (∃ r, verifierEligibiliteDeliberation (some p) stats = .ok r ∧
      r.eligible = (decide (stats.pourcentageCapitalisation ≥ p.minCapitalisation) &&
        decide ((stats.ueTotal : Int) - (stats.ueCapitalisees : Int) ≤ p.maxUeNonCapitalisees)) ∧
      r.pourcentageCapitalisation = stats.pourcentageCapitalisation ∧
      r.ueNonCapitalisees = (stats.ueTotal : Int) - (stats.ueCapitalisees : Int) ∧
      r.ueTotal = stats.ueTotal ∧
      r.criteres = [⟨"Pourcentage de capitalisation", stats.pourcentageCapitalisation,
          p.minCapitalisation, decide (stats.pourcentageCapitalisation ≥ p.minCapitalisation)⟩,
        ⟨"UE non capitalisées",
          (Int.cast ((stats.ueTotal : Int) - (stats.ueCapitalisees : Int)) : Rat),
          (p.maxUeNonCapitalisees : Rat),
          decide ((stats.ueTotal : Int) - (stats.ueCapitalisees : Int) ≤
            p.maxUeNonCapitalisees)⟩] ∧
      r.raison = (if r.eligible = true then none
        else some ("Non respect des critères: " ++ String.intercalate ", "
          ((r.criteres.filter fun c => !c.respecte).map fun c => c.critere)))) ∧
    (verifierEligibiliteDeliberation (some ⟨80, 2⟩) ⟨10, 10, 75, 2, 3, 30, 45⟩).map
      (fun r => (r.eligible, (r.criteres.filter fun c => !c.respecte).map fun c => c.critere,
        r.raison)) =
      .ok (false, ["Pourcentage de capitalisation"],
        some "Non respect des critères: Pourcentage de capitalisation") := by
  refine ⟨rfl, ⟨_, rfl, ?_, ?_, ?_, ?_, ?_, ?_⟩, ?_⟩
  · rfl
  · rfl
  · rfl
  · rfl
  · rfl
  · rfl
  · norm_num [verifierEligibiliteDeliberation, Except.map, String.intercalate]
    decide

/-! ## C10 — batch processing -/

theorem traiterItem_foldl (sv : String → Bool) (nbP : Int) (items : List BatchEvalItem)
    (store : List LigneResultat) (res : BatchResult) :
    items.foldl (traiterItem sv nbP) (store, res) =
      ((items.filter fun it => itemValide sv nbP it).foldl enregistrerItem store,
        ⟨res.success + (items.filter fun it => itemValide sv nbP it).length,
         res.failed + (items.filter fun it => !itemValide sv nbP it).length,
         res.errors ++ (items.filter fun it => !itemValide sv nbP it).map
           fun it => (it.matriculeEtudiant, messageEchec sv nbP it)⟩) := by
  induction items generalizing store res with
  | nil => simp
  | cons it its ih =>
    by_cases hv : itemValide sv nbP it = true
    · simp only [List.foldl_cons, traiterItem, hv, if_true, List.filter_cons,
        Bool.not_true, Bool.false_eq_true, if_false, List.length_cons]
      have hsucc : res.success + 1 + (its.filter fun x => itemValide sv nbP x).length =
          res.success + ((its.filter fun x => itemValide sv nbP x).length + 1) := by omega
      rw [ih, hsucc]
    · have hv' : itemValide sv nbP it = false := by
        cases hb : itemValide sv nbP it
        · rfl
        · exact absurd hb hv
      simp only [List.foldl_cons, traiterItem, hv', Bool.false_eq_true, if_false,
        List.filter_cons, Bool.not_false, if_true, List.length_cons, List.map_cons]
      have hfail : res.failed + 1 + (its.filter fun x => !itemValide sv nbP x).length =
          res.failed + ((its.filter fun x => !itemValide sv nbP x).length + 1) := by omega
      rw [ih, hfail, List.append_assoc]
      rfl

/-- C10: on the success path of a batch submission, the counters
satisfy `success = number of valid items`, `failed = number of invalid
items` (so `success + failed = items.length`), the errors array carries
exactly one `(matricule, message)` pair per failed item, and the final
stored state is the fold of exactly the valid items over the initial
state — an invalid item leaves the store untouched and does not prevent
the remaining items from being processed and recorded.  An unresolved
component or an unauthorized teacher fails the whole batch instead. -/
theorem createBatchEvaluations_spec (comp : Composante) (sv : String → Bool)
    (store : List LigneResultat) (items : List BatchEvalItem) :
    createBatchEvaluations (some comp) true sv store items = .ok
      ((items.filter fun it => itemValide sv comp.nbPoints it).foldl enregistrerItem store,
        ⟨(items.filter fun it => itemValide sv comp.nbPoints it).length,
         (items.filter fun it => !itemValide sv comp.nbPoints it).length,
         (items.filter fun it => !itemValide sv comp.nbPoints it).map
           fun it => (it.matriculeEtudiant, messageEchec sv comp.nbPoints it)⟩) ∧
    (items.filter fun it => itemValide sv comp.nbPoints it).length +
      (items.filter fun it => !itemValide sv comp.nbPoints it).length = items.length ∧
    createBatchEvaluations none true sv store items =
      .error ⟨"Evaluation component not found", 404, "COMPOSANTE_NOT_FOUND"⟩ ∧
    createBatchEvaluations (some comp) false sv store items =
      .error ⟨"Teacher not authorized to enter grades for this UE", 403, "NOT_AUTHORIZED"⟩ := by
  refine ⟨?_, ?_, rfl, rfl⟩
  · simp only [createBatchEvaluations, Bool.not_true, if_false]
    rw [traiterItem_foldl]
    simp
  · induction items with
    | nil => simp
    | cons it its ih =>
      by_cases hv : itemValide sv comp.nbPoints it = true
      · simp [List.filter_cons, hv]
        omega
      · have hv' : itemValide sv comp.nbPoints it = false := by
          cases hb : itemValide sv comp.nbPoints it
          · rfl
          · exact absurd hb hv
        simp [List.filter_cons, hv']
        omega

/-! ## C8 — component weight invariant -/

theorem nodup_map_inj (f : α → β) (l : List α) (h : (l.map f).Nodup) :
    ∀ x ∈ l, ∀ y ∈ l, f x = f y → x = y := by
  induction l with
  | nil => simp
  | cons a as ih =>
    simp only [List.map_cons, List.nodup_cons] at h
    intro x hx y hy hxy
    rcases List.mem_cons.mp hx with rfl | hx' <;> rcases List.mem_cons.mp hy with rfl | hy'
    · rfl
    · exact absurd (hxy ▸ List.mem_map_of_mem f hy') h.1
    · exact absurd (hxy ▸ List.mem_map_of_mem f hx') h.1
    · exact ih h.2 x hx' y hy' hxy

theorem filtreUe_map (f : ComposanteRow → ComposanteRow) (s : List ComposanteRow) (ue : String)
    (h : ∀ x ∈ s, f x = x ∨ (¬ x.codeUe = ue ∧ ¬ (f x).codeUe = ue)) :
    (s.map f).filter (fun c => c.codeUe = ue) = s.filter (fun c => c.codeUe = ue) := by
  induction s with
  | nil => rfl
  | cons a as ih =>
    have hrest : ∀ x ∈ as, f x = x ∨ (¬ x.codeUe = ue ∧ ¬ (f x).codeUe = ue) :=
      fun x hx => h x (List.mem_cons_of_mem a hx)
    rcases h a (List.mem_cons_self a as) with ha | ⟨h1, h2⟩
    · simp only [List.map_cons, List.filter_cons, ha, ih hrest]
    · simp only [List.map_cons, List.filter_cons, h1, h2, decide_False, if_false,
        Bool.false_eq_true, ih hrest]

theorem filtreUe_delete (s : List ComposanteRow) (i : Nat) (ue : String)
    (h : ∀ x ∈ s, x.id = i → ¬ x.codeUe = ue) :
    ((s.filter fun c => c.id ≠ i).filter fun c => c.codeUe = ue)
      = s.filter fun c => c.codeUe = ue := by
  rw [List.filter_filter]
  refine List.filter_congr fun x hx => ?_
  by_cases hxc : x.codeUe = ue
  · have hxi : ¬ x.id = i := fun hxi => h x hx hxi hxc
    simp [hxc, hxi]
  · simp [hxc]

/-- Extraction lemma: an accepted write is the row effect, and the
trigger check passed on the checked unit. -/
theorem etape_accepted (s s' : List ComposanteRow) (op : OpComposante) (u : String)
    (hu : ueVerifiee s op = some u) (hstep : etapeComposante s op = some s') :
    s' = appliquerOp s op ∧ checkUePercentageTotal (appliquerOp s op) u = true := by
  simp only [etapeComposante, hu] at hstep
  cases hch : checkUePercentageTotal (appliquerOp s op) u
  · simp [hch] at hstep
  · simp [hch] at hstep
    exact ⟨hstep.symm, rfl⟩

theorem check_bound (s : List ComposanteRow) (ue : String)
    (hch : checkUePercentageTotal s ue = true) (hdes : aDesComposantes s ue = true) :
    |sommeUe s ue - 100| ≤ 1/100 := by
  simp [checkUePercentageTotal, hdes] at hch
  have h100 : (1 : Rat) / 100 = 100⁻¹ := by norm_num
  rw [h100]
  exact hch

/-- C8 (amended): the database trigger maintains the weight-sum
invariant — every unit with at least one component sums to within 0.01
of 100 — across inserts, deletes, and updates that do not move a
component to a different unit: any such write that would break the
invariant is rejected by `check_ue_percentage_total`.  (An update that
changes a component's `code_ue` is checked only against the old unit,
so it can push the destination unit's sum out of tolerance — see the
counterexample.)  Row ids are assumed unique, as the serial primary key
guarantees. -/
theorem invariantPourcentages_preserve (s s' : List ComposanteRow) (op : OpComposante)
    (hids : (s.map fun c => c.id).Nodup) (hinv : invariantPourcentages s)
    (hop : opConserveUe s op) (hstep : etapeComposante s op = some s') :
    invariantPourcentages s' := by
  cases op with
  | inserer c =>
    obtain ⟨rfl, hcheck⟩ := etape_accepted s s' (.inserer c) c.codeUe rfl hstep
    intro ue hue
    by_cases hc : c.codeUe = ue
    · subst hc
      exact check_bound _ _ hcheck hue
    · have hfil : ((s ++ [c]).filter fun x => x.codeUe = ue) = s.filter fun x => x.codeUe = ue := by
        simp [List.filter_append, hc]
      have hsum : sommeUe (appliquerOp s (.inserer c)) ue = sommeUe s ue := by
        simp only [appliquerOp, sommeUe, hfil]
      have hdes : aDesComposantes s ue = true := by
        simpa only [appliquerOp, aDesComposantes, hfil] using hue
      rw [hsum]
      exact hinv ue hdes
  | modifier i ue' p =>
    cases hfind : s.find? fun c => c.id = i with
    | none =>
      have hid : ∀ c ∈ s, ¬ c.id = i := by
        intro c hc
        have := List.find?_eq_none.mp hfind c hc
        simpa using this
      have hmap : appliquerOp s (.modifier i ue' p) = s := by
        simp only [appliquerOp]
        rw [List.map_congr_left fun c hc => if_neg (hid c hc)]
        simp
      have hs' : s' = s := by
        simp only [etapeComposante, ueVerifiee, hfind, Option.map_none'] at hstep
        simp at hstep
        rw [← hstep, hmap]
      rw [hs']
      exact hinv
    | some c0 =>
      have hc0mem : c0 ∈ s := List.mem_of_find?_eq_some hfind
      have hc0id : c0.id = i := by simpa using List.find?_some hfind
      have hc0ue : c0.codeUe = ue' := hop c0 hc0mem hc0id
      have hu : ueVerifiee s (.modifier i ue' p) = some c0.codeUe := by
        simp [ueVerifiee, hfind]
      obtain ⟨rfl, hcheck⟩ := etape_accepted s s' (.modifier i ue' p) c0.codeUe hu hstep
      have huniq : ∀ x ∈ s, x.id = i → x = c0 :=
        fun x hx hxi => nodup_map_inj (fun c => c.id) s hids x hx c0 hc0mem
          (show x.id = c0.id by rw [hxi, hc0id])
      intro ue hue
      by_cases hcu : ue' = ue
      · subst hcu
        exact check_bound _ _ (by rwa [hc0ue] at hcheck) hue
      · have hcond : ∀ x ∈ s,
            ((fun c => if c.id = i then { c with codeUe := ue', pourcentage := p } else c) x = x)
            ∨ (¬ x.codeUe = ue ∧
              ¬ ((fun c => if c.id = i then { c with codeUe := ue', pourcentage := p } else c)
                  x).codeUe = ue) := by
          intro x hx
          by_cases hxi : x.id = i
          · right
            have hxc0 : x = c0 := huniq x hx hxi
            subst hxc0
            refine ⟨by rw [hc0ue]; exact hcu, ?_⟩
            simp [hxi, hcu]
          · left
            simp [hxi]
        have hfil := filtreUe_map _ s ue hcond
        have hsum : sommeUe (appliquerOp s (.modifier i ue' p)) ue = sommeUe s ue := by
          simp only [appliquerOp, sommeUe, hfil]
        have hdes : aDesComposantes s ue = true := by
          simpa only [appliquerOp, aDesComposantes, hfil] using hue
        rw [hsum]
        exact hinv ue hdes
  | supprimer i =>
    cases hfind : s.find? fun c => c.id = i with
    | none =>
      have hid : ∀ c ∈ s, ¬ c.id = i := by
        intro c hc
        have := List.find?_eq_none.mp hfind c hc
        simpa using this
      have hmap : appliquerOp s (.supprimer i) = s := by
        simp only [appliquerOp]
        exact List.filter_eq_self.mpr fun c hc => by simp [hid c hc]
      have hs' : s' = s := by
        simp only [etapeComposante, ueVerifiee, hfind, Option.map_none'] at hstep
        simp at hstep
        rw [← hstep, hmap]
      rw [hs']
      exact hinv
    | some c0 =>
      have hc0mem : c0 ∈ s := List.mem_of_find?_eq_some hfind
      have hc0id : c0.id = i := by simpa using List.find?_some hfind
      have hu : ueVerifiee s (.supprimer i) = some c0.codeUe := by
        simp [ueVerifiee, hfind]
      obtain ⟨rfl, hcheck⟩ := etape_accepted s s' (.supprimer i) c0.codeUe hu hstep
      have huniq : ∀ x ∈ s, x.id = i → x = c0 :=
        fun x hx hxi => nodup_map_inj (fun c => c.id) s hids x hx c0 hc0mem
          (show x.id = c0.id by rw [hxi, hc0id])
      intro ue hue
      by_cases hcu : c0.codeUe = ue
      · exact check_bound _ _ (hcu ▸ hcheck) hue
      · have hcond : ∀ x ∈ s, x.id = i → ¬ x.codeUe = ue := by
          intro x hx hxi
          rw [huniq x hx hxi]
          exact hcu
        have hfil := filtreUe_delete s i ue hcond
        have hsum : sommeUe (appliquerOp s (.supprimer i)) ue = sommeUe s ue := by
          simp only [appliquerOp, sommeUe, hfil]
        have hdes : aDesComposantes s ue = true := by
          simpa only [appliquerOp, aDesComposantes, hfil] using hue
        rw [hsum]
        exact hinv ue hdes

/-- C8 witness: an accepted same-unit update (40 → 40.01, sum 100.01,
within tolerance) preserves the invariant. -/
theorem invariantPourcentages_preserve_witness :
    (([⟨1, "A", 60⟩, ⟨2, "A", 40⟩] : List ComposanteRow).map fun c => c.id).Nodup ∧
    invariantPourcentages [⟨1, "A", 60⟩, ⟨2, "A", 40⟩] ∧
    opConserveUe [⟨1, "A", 60⟩, ⟨2, "A", 40⟩] (.modifier 2 "A" (4001/100)) ∧
    etapeComposante [⟨1, "A", 60⟩, ⟨2, "A", 40⟩] (.modifier 2 "A" (4001/100)) =
      some [⟨1, "A", 60⟩, ⟨2, "A", 4001/100⟩] ∧
    invariantPourcentages [⟨1, "A", 60⟩, ⟨2, "A", 4001/100⟩] := by
  have h1 : (([⟨1, "A", 60⟩, ⟨2, "A", 40⟩] : List ComposanteRow).map fun c => c.id).Nodup := by
    simp
  have h2 : invariantPourcentages [⟨1, "A", 60⟩, ⟨2, "A", 40⟩] := by
    intro ue hue
    by_cases hA : "A" = ue
    · subst hA
      norm_num [sommeUe]
    · exact absurd hue (by simp [aDesComposantes, hA])
  have h3 : opConserveUe [⟨1, "A", 60⟩, ⟨2, "A", 40⟩] (.modifier 2 "A" (4001/100)) := by
    intro c hc hid
    rcases (by simpa using hc :
        c = (⟨1, "A", 60⟩ : ComposanteRow) ∨ c = (⟨2, "A", 40⟩ : ComposanteRow)) with rfl | rfl
    · rfl
    · rfl
  have h4 : etapeComposante [⟨1, "A", 60⟩, ⟨2, "A", 40⟩] (.modifier 2 "A" (4001/100)) =
      some [⟨1, "A", 60⟩, ⟨2, "A", 4001/100⟩] := by
    norm_num [etapeComposante, appliquerOp, ueVerifiee, checkUePercentageTotal,
      aDesComposantes, sommeUe, List.find?, abs_le]
  exact ⟨h1, h2, h3, h4,
    invariantPourcentages_preserve [⟨1, "A", 60⟩, ⟨2, "A", 40⟩]
      [⟨1, "A", 60⟩, ⟨2, "A", 4001/100⟩] (.modifier 2 "A" (4001/100)) h1 h2 h3 h4⟩

/-- C8 counterexample: every write in this run is accepted by the
trigger, yet the final state violates the invariant.  Unit A is built
with components 100 and 0.01 (sum 100.01, within tolerance), unit B the
same; the update then moves A's 0.01-component to B: the trigger checks
only the old unit A (sum back to 100), and B silently reaches
100.02 — more than 0.01 away from 100.  The claim says every component
create or update that breaks the sum is rejected. -/
theorem checkUePercentageTotal_contre :
    executerOps []
        [.inserer ⟨1, "A", 100⟩, .inserer ⟨2, "A", 1/100⟩, .inserer ⟨3, "B", 100⟩,
          .inserer ⟨4, "B", 1/100⟩, .modifier 2 "B" (1/100)] =
      some [⟨1, "A", 100⟩, ⟨2, "B", 1/100⟩, ⟨3, "B", 100⟩, ⟨4, "B", 1/100⟩] ∧
    sommeUe [⟨1, "A", 100⟩, ⟨2, "B", 1/100⟩, ⟨3, "B", 100⟩, ⟨4, "B", 1/100⟩] "B" =
      10002/100 ∧
    ¬ invariantPourcentages [⟨1, "A", 100⟩, ⟨2, "B", 1/100⟩, ⟨3, "B", 100⟩,
      ⟨4, "B", 1/100⟩] := by
  have hBA : ("B" : String) ≠ "A" := by decide
  have hAB : ("A" : String) ≠ "B" := by decide
  refine ⟨?_, ?_, ?_⟩
  · norm_num [executerOps, etapeComposante, appliquerOp, ueVerifiee, checkUePercentageTotal,
      aDesComposantes, sommeUe, List.find?, abs_le, hBA, hAB]
  · norm_num [sommeUe, hAB]
  · intro h
    have hb := h "B" (by simp [aDesComposantes, hAB])
    rw [show sommeUe [(⟨1, "A", 100⟩ : ComposanteRow), ⟨2, "B", 1/100⟩, ⟨3, "B", 100⟩,
        ⟨4, "B", 1/100⟩] "B" = 10002/100 from by norm_num [sommeUe, hAB]] at hb
    norm_num [abs_le] at hb

end Hevia
